import Mathlib

/-!
Verification development for the DataHandle repository (src/test.py, src/common.py).

The embedding below translates the parts of the source that the verified
properties are about:

* `csvParse` — the row parsing performed by `csv.reader(fh, delimiter='\t')`
  over a file opened with `newline=''` (src/test.py lines 80-91): fields are
  tab-delimited with double-quote quoting (doubled quote = literal quote,
  non-strict dialect), records end at CR, LF or CR LF outside quotes, a
  CR/LF inside a double-quoted field is data, and an unterminated quoted
  field at end of input yields the partial field (non-strict behaviour).
* `scanAll` — the first-pass scan of src/test.py lines 88-112: replacement
  detection, embedded-newline error collection, dynamic column extension and
  per-column maximum trimmed lengths.
* `genLines` / `defLine` / `headerSafe` — the generation loop of
  src/test.py lines 135-153.
* `writeErrorReport` — the lines emitted by `write_error_report`
  (src/test.py lines 37-54), with the timestamp abstracted as an argument.
* `main` — the control flow of `main` (empty source exit 1, unreadable
  source exit 2, structural violation exit 5, otherwise the joined text).
* `detect_encoding` — `Common.detect_encoding` of src/common.py lines
  107-154, over a byte sample, with the two optional charset-guessing
  facilities abstracted as function arguments.
-/

namespace DataHandle

/-- The characters Python's `str.strip()` removes, i.e. the characters for
which `str.isspace()` holds: U+0009-U+000D, U+001C-U+001F, space, U+0085
(NEL), U+00A0 (NBSP), U+1680 (Ogham space mark), U+2000-U+200A (en quad
through hair space), U+2028 (line separator), U+2029 (paragraph
separator), U+202F (narrow no-break space), U+205F (medium mathematical
space) and U+3000 (ideographic space). -/
def pyWhitespace (c : Char) : Bool :=
  c == ' ' || c == '\t' || c == '\n' || c == '\r' || c == '\x0b' || c == '\x0c' ||
  c == '\x1c' || c == '\x1d' || c == '\x1e' || c == '\x1f' ||
  c == '\x85' || c == '\xa0' || c == '\u1680' ||
  c == '\u2000' || c == '\u2001' || c == '\u2002' || c == '\u2003' ||
  c == '\u2004' || c == '\u2005' || c == '\u2006' || c == '\u2007' ||
  c == '\u2008' || c == '\u2009' || c == '\u200a' ||
  c == '\u2028' || c == '\u2029' || c == '\u202f' || c == '\u205f' ||
  c == '\u3000'

/-- `val.strip()` on a field represented as a list of characters
(src/test.py line 109). -/
def pyStrip (l : List Char) : List Char :=
  ((l.dropWhile pyWhitespace).reverse.dropWhile pyWhitespace).reverse

/-- States of the `csv.reader` record/field state machine (the CPython
`_csv` parser restricted to delimiter TAB, quotechar `"`, doublequote,
non-strict, fed lines split at CR, LF or CRLF as `newline=''` reading does). -/
inductive CsvState where
  | startRecord
  | eatCRNL
  | startField
  | inField
  | inQuoted
  | quoteInQuoted
deriving DecidableEq

/-- Result at end of input for each parser state: a pending field/record is
emitted (non-strict `csv` behaviour), nothing pending yields nothing. -/
def csvEnd : CsvState → List (List Char) → List Char → List (List (List Char))
  | .startRecord, _, _ => []
  | .eatCRNL, _, _ => []
  | .startField, row, _ => [row ++ [[]]]
  | .inField, row, field => [row ++ [field]]
  | .inQuoted, row, field => [row ++ [field]]
  | .quoteInQuoted, row, field => [row ++ [field]]

/-- One-character-at-a-time transcription of the `csv.reader` state machine:
`row` is the list of completed fields of the current record, `field` the
characters of the current field. -/
def csvScan : CsvState → List (List Char) → List Char → List Char →
    List (List (List Char))
  | st, row, field, [] => csvEnd st row field
  | st, row, field, c :: input =>
    match st with
    | .startRecord =>
      if c = '\r' then [] :: csvScan .eatCRNL [] [] input
      else if c = '\n' then [] :: csvScan .startRecord [] [] input
      else if c = '\t' then csvScan .startField [[]] [] input
      else if c = '"' then csvScan .inQuoted [] [] input
      else csvScan .inField [] [c] input
    | .eatCRNL =>
      if c = '\n' then csvScan .startRecord [] [] input
      else if c = '\r' then [] :: csvScan .eatCRNL [] [] input
      else if c = '\t' then csvScan .startField [[]] [] input
      else if c = '"' then csvScan .inQuoted [] [] input
      else csvScan .inField [] [c] input
    | .startField =>
      if c = '\r' then (row ++ [[]]) :: csvScan .eatCRNL [] [] input
      else if c = '\n' then (row ++ [[]]) :: csvScan .startRecord [] [] input
      else if c = '\t' then csvScan .startField (row ++ [[]]) [] input
      else if c = '"' then csvScan .inQuoted row [] input
      else csvScan .inField row [c] input
    | .inField =>
      if c = '\r' then (row ++ [field]) :: csvScan .eatCRNL [] [] input
      else if c = '\n' then (row ++ [field]) :: csvScan .startRecord [] [] input
      else if c = '\t' then csvScan .startField (row ++ [field]) [] input
      else csvScan .inField row (field ++ [c]) input
    | .inQuoted =>
      if c = '"' then csvScan .quoteInQuoted row field input
      else csvScan .inQuoted row (field ++ [c]) input
    | .quoteInQuoted =>
      if c = '"' then csvScan .inQuoted row (field ++ ['"']) input
      else if c = '\r' then (row ++ [field]) :: csvScan .eatCRNL [] [] input
      else if c = '\n' then (row ++ [field]) :: csvScan .startRecord [] [] input
      else if c = '\t' then csvScan .startField (row ++ [field]) [] input
      else csvScan .inField row (field ++ [c]) input

/-- All records produced by `csv.reader(fh, delimiter='\t')` on the given
decoded text (src/test.py line 81). -/
def csvParse (text : List Char) : List (List (List Char)) :=
  csvScan .startRecord [] [] text

/-- The check `'\n' in v or '\r' in v` of src/test.py line 99. -/
def fieldHasNewline (v : List Char) : Bool :=
  v.any (fun c => c == '\n') || v.any (fun c => c == '\r')

/-- The check `'�' in v` of src/test.py line 95. -/
def fieldHasReplacement (v : List Char) : Bool :=
  v.any (fun c => c == '�')

/-- The error string built at src/test.py line 100. -/
def errLine (rowno colno : Nat) : String :=
  "Line " ++ toString rowno ++ ", Column " ++ toString colno ++
    ": embedded newline in field"

/-- Errors contributed by one row: `for colno, v in enumerate(row, start=1)`
(src/test.py lines 98-100). -/
def rowErrors (rowno colno : Nat) : List (List Char) → List String
  | [] => []
  | v :: vs =>
    (if fieldHasNewline v then [errLine rowno colno] else []) ++
      rowErrors rowno (colno + 1) vs

/-- `max_lens.extend([0] * extra)` when the row is longer than the current
column count (src/test.py lines 102-105). -/
def extendLens (maxLens : List Nat) (rowLen : Nat) : List Nat :=
  if maxLens.length < rowLen then
    maxLens ++ List.replicate (rowLen - maxLens.length) 0
  else maxLens

/-- Trimmed length of the row's value at column `i`, an absent value being
the empty string (src/test.py lines 108-110). -/
def trimmedLen (row : List (List Char)) (i : Nat) : Nat :=
  (pyStrip (row.getD i [])).length

/-- The per-row width update of src/test.py lines 102-112: extend the width
array to the row length, then take the pointwise maximum with the trimmed
value lengths. -/
def updateLens (maxLens : List Nat) (row : List (List Char)) : List Nat :=
  let ml := extendLens maxLens row.length
  (List.range ml.length).map (fun i => max (ml.getD i 0) (trimmedLen row i))

/-- State of the first-pass scan (src/test.py lines 78-112): the
`replaced` flag, the collected error strings, the width array and the
current physical row number. -/
structure ScanState where
  replaced : Bool
  errors : List String
  maxLens : List Nat
  rowno : Nat
deriving DecidableEq

/-- Processing of one data row in the first-pass loop
(src/test.py lines 91-112). -/
def scanRow (st : ScanState) (row : List (List Char)) : ScanState :=
  { replaced := st.replaced || row.any fieldHasReplacement
    errors := st.errors ++ rowErrors (st.rowno + 1) 1 row
    maxLens := updateLens st.maxLens row
    rowno := st.rowno + 1 }

/-- The whole first pass over the data rows, starting from
`max_lens = [0] * ncols` and `rowno = 1` (src/test.py lines 88-112). -/
def scanAll (headers : List (List Char)) (rows : List (List (List Char))) :
    ScanState :=
  rows.foldl scanRow
    { replaced := false
      errors := []
      maxLens := List.replicate headers.length 0
      rowno := 1 }

/-- `f"{idx:03d}"` — decimal digits, zero-padded on the left to width 3
(src/test.py line 141). -/
def pad3 (n : Nat) : String :=
  let s := toString n
  String.mk (List.replicate (3 - s.length) '0') ++ s

/-- `header.replace('"', '\\"')` for the single-character pattern `"`
(src/test.py line 139). -/
def escapeQuotes : List Char → List Char
  | [] => []
  | c :: cs => (if c = '"' then ['\\', '"'] else [c]) ++ escapeQuotes cs

/-- `.replace(" ", "_")` for the single-character pattern (src/test.py
line 139). -/
def spaceUnderscore (l : List Char) : List Char :=
  l.map (fun c => if c = ' ' then '_' else c)

/-- The sanitized header label for column `i`:
`headers[i].strip() if i < len(headers) else f"COL{i+1}"`, then the quote
escape and the space replacement (src/test.py lines 137-139). -/
def headerSafe (headers : List (List Char)) (i : Nat) : List Char :=
  let header :=
    if i < headers.length then pyStrip (headers.getD i [])
    else ("COL" ++ toString (i + 1)).data
  spaceUnderscore (escapeQuotes header)

/-- The exact definition line built at src/test.py line 144. -/
def defLine (label : List Char) (idx : Nat) (maxlen : Nat) : String :=
  "F" ++ pad3 idx ++ "_" ++ String.mk label ++
    " computed \nsubstr( alltrim( split( Full_Record , chr( 009 ), " ++
    pad3 idx ++ " , chr( 34 ) ) ) , 1 , " ++ toString maxlen ++ " )"

/-- The generation loop of src/test.py lines 135-150: one line per entry of
the final width array. -/
def genLines (headers : List (List Char)) (maxLens : List Nat) :
    List String :=
  (List.range maxLens.length).map
    (fun i => defLine (headerSafe headers i) (i + 1) (maxLens.getD i 0))

/-- The lines written by `write_error_report` (src/test.py lines 37-46):
the timestamped count header, the fixed banner line, then the collected
error strings in order. The timestamp string is passed in. -/
def writeErrorReport (now : String) (errors : List String) : List String :=
  (now ++ " - " ++ toString errors.length ++ " errors detected") ::
    "Error: malformed lines detected:" :: errors

/-- Outcome of a run of `main` (src/test.py lines 56-164). -/
inductive Outcome where
  | sourceUnavailable
  | emptySource
  | structuralViolation (errors : List String)
  | generated (text : String)
deriving DecidableEq

/-- The process exit code attached to each outcome: `sys.exit(2)` at
src/test.py line 123, `sys.exit(1)` at line 86, `sys.exit(5)` at line 116,
and the normal exit after printing. -/
def exitSignal : Outcome → Nat
  | .sourceUnavailable => 2
  | .emptySource => 1
  | .structuralViolation _ => 5
  | .generated _ => 0

/-- Control flow of `main` (src/test.py lines 76-164): an unreadable source
(`none`) aborts, a source with no records aborts as empty, collected errors
abort generation, otherwise the generated lines are joined with a single
newline (line 153). -/
def main (input : Option (List Char)) : Outcome :=
  match input with
  | none => Outcome.sourceUnavailable
  | some text =>
    match csvParse text with
    | [] => Outcome.emptySource
    | headers :: dataRows =>
      let st := scanAll headers dataRows
      if st.errors = [] then
        Outcome.generated (String.intercalate "\n" (genLines headers st.maxLens))
      else Outcome.structuralViolation st.errors

/-- `Common.detect_encoding` (src/common.py lines 107-154) over the sampled
bytes, the two optional charset-guessing facilities passed as functions
(`none` = facility absent or without a best guess). The first BOM test is
`sample.startswith(b'\xef\xbb\bf')`: in that Python bytes literal `\b` is
the backspace character, so the compared prefix is the bytes
EF BB 08 66, not the UTF-8 byte-order mark EF BB BF. -/
def detect_encoding (sample : List Nat)
    (guessA guessB : List Nat → Option String) : String :=
  if List.isPrefixOf [0xEF, 0xBB, 0x08, 0x66] sample then "utf-8-sig"
  else if List.isPrefixOf [0xFF, 0xFE] sample ||
      List.isPrefixOf [0xFE, 0xFF] sample then "utf-16"
  else
    match guessA sample with
    | some e => e
    | none =>
      match guessB sample with
      | some e => e
      | none => "utf-8"

/-- Comparison embedding for the refinement claim about the write-only
`replaced` flag: the same first-pass scan state without that flag. -/
structure ScanStateNoFlag where
  errors : List String
  maxLens : List Nat
  rowno : Nat
deriving DecidableEq

/-- The row step of the comparison embedding without the flag. -/
def scanRowNoFlag (st : ScanStateNoFlag) (row : List (List Char)) :
    ScanStateNoFlag :=
  { errors := st.errors ++ rowErrors (st.rowno + 1) 1 row
    maxLens := updateLens st.maxLens row
    rowno := st.rowno + 1 }

/-- The first pass of the comparison embedding without the flag. -/
def scanAllNoFlag (headers : List (List Char))
    (rows : List (List (List Char))) : ScanStateNoFlag :=
  rows.foldl scanRowNoFlag
    { errors := []
      maxLens := List.replicate headers.length 0
      rowno := 1 }

/-- The pipeline of the comparison embedding without the flag. -/
def mainNoFlag (input : Option (List Char)) : Outcome :=
  match input with
  | none => Outcome.sourceUnavailable
  | some text =>
    match csvParse text with
    | [] => Outcome.emptySource
    | headers :: dataRows =>
      let st := scanAllNoFlag headers dataRows
      if st.errors = [] then
        Outcome.generated (String.intercalate "\n" (genLines headers st.maxLens))
      else Outcome.structuralViolation st.errors

/-- Characters the `csv` state machine treats as plain data everywhere:
neither the delimiter, nor a newline character, nor the quote character. -/
def plainChar (c : Char) : Bool :=
  !(c == '\t' || c == '\r' || c == '\n' || c == '"')

section HelperLemmas

theorem getD_range_map (f : Nat → Nat) (n i : Nat) :
    ((List.range n).map f).getD i 0 = if i < n then f i else 0 := by
  rcases Nat.lt_or_ge i n with h | h
  · rw [List.getD_eq_getElem?_getD, List.getElem?_map, List.getElem?_range h]
    simp [h]
  · rw [List.getD_eq_getElem?_getD, List.getElem?_eq_none (by simpa using h)]
    simp [Nat.not_lt.mpr h]

theorem getD_replicate_zero (n i : Nat) :
    (List.replicate n (0 : Nat)).getD i 0 = 0 := by
  rw [List.getD_eq_getElem?_getD, List.getElem?_replicate]
  split <;> rfl

theorem getD_out (l : List Nat) (i : Nat) (h : l.length ≤ i) :
    l.getD i 0 = 0 := by
  rw [List.getD_eq_getElem?_getD, List.getElem?_eq_none (by simpa using h)]
  rfl

theorem extendLens_length (st : List Nat) (k : Nat) :
    (extendLens st k).length = max st.length k := by
  rw [extendLens]
  split <;> simp <;> omega

theorem extendLens_getD (st : List Nat) (k i : Nat) :
    (extendLens st k).getD i 0 = st.getD i 0 := by
  rw [extendLens]
  split
  · rcases Nat.lt_or_ge i st.length with h | h
    · rw [List.getD_eq_getElem?_getD, List.getD_eq_getElem?_getD,
        List.getElem?_append, if_pos h]
    · rw [getD_out st i h, List.getD_eq_getElem?_getD, List.getElem?_append_right h,
        List.getElem?_replicate]
      split <;> rfl
  · rfl

theorem pyStrip_nil : pyStrip [] = [] := rfl

theorem trimmedLen_out (row : List (List Char)) (i : Nat)
    (h : row.length ≤ i) : trimmedLen row i = 0 := by
  rw [trimmedLen, List.getD_eq_getElem?_getD, List.getElem?_eq_none (by simpa using h)]
  rfl

theorem updateLens_getD (st : List Nat) (row : List (List Char)) (i : Nat) :
    (updateLens st row).getD i 0 = max (st.getD i 0) (trimmedLen row i) := by
  rw [updateLens]
  have hlen : (extendLens st row.length).length = max st.length row.length :=
    extendLens_length st row.length
  rw [getD_range_map]
  split
  · rw [extendLens_getD]
  · rename_i h
    rw [hlen] at h
    have h1 : st.length ≤ i := by omega
    have h2 : row.length ≤ i := by omega
    rw [getD_out st i h1, trimmedLen_out row i h2]
    decide

theorem updateLens_length (st : List Nat) (row : List (List Char)) :
    (updateLens st row).length = max st.length row.length := by
  rw [updateLens]
  simp [extendLens_length]

theorem widths_foldl_getD (rows : List (List (List Char))) :
    ∀ (st : List Nat) (i : Nat),
      (rows.foldl updateLens st).getD i 0
        = max (st.getD i 0) ((rows.map (fun r => trimmedLen r i)).foldr max 0) := by
  induction rows with
  | nil => intro st i; simp
  | cons r rs ih =>
    intro st i
    rw [List.foldl_cons, ih, updateLens_getD, List.map_cons, List.foldr_cons,
      Nat.max_assoc]

theorem widths_foldl_length (rows : List (List (List Char))) :
    ∀ st : List Nat,
      (rows.foldl updateLens st).length
        = rows.foldl (fun n r => max n r.length) st.length := by
  induction rows with
  | nil => intro st; rfl
  | cons r rs ih =>
    intro st
    rw [List.foldl_cons, ih, updateLens_length, List.foldl_cons]

theorem scan_foldl_maxLens (rows : List (List (List Char))) :
    ∀ st : ScanState,
      (rows.foldl scanRow st).maxLens = rows.foldl updateLens st.maxLens := by
  induction rows with
  | nil => intro st; rfl
  | cons r rs ih => intro st; rw [List.foldl_cons, ih, List.foldl_cons]; rfl

/-- The error strings collected over the remaining rows, given the row
number already consumed. -/
def errsFrom (rowno : Nat) : List (List (List Char)) → List String
  | [] => []
  | r :: rs => rowErrors (rowno + 1) 1 r ++ errsFrom (rowno + 1) rs

theorem scan_foldl_errors (rows : List (List (List Char))) :
    ∀ st : ScanState,
      (rows.foldl scanRow st).errors = st.errors ++ errsFrom st.rowno rows := by
  induction rows with
  | nil => intro st; simp [errsFrom]
  | cons r rs ih =>
    intro st
    rw [List.foldl_cons, ih, errsFrom]
    simp [scanRow]

theorem rowErrors_eq_nil_iff (row : List (List Char)) :
    ∀ n c : Nat,
      rowErrors n c row = [] ↔ ∀ v ∈ row, fieldHasNewline v = false := by
  induction row with
  | nil => intro n c; simp [rowErrors]
  | cons v vs ih =>
    intro n c
    rw [rowErrors]
    constructor
    · intro h
      rw [List.append_eq_nil] at h
      intro w hw
      rcases List.mem_cons.mp hw with hv | hv
      · subst hv
        by_contra hfh
        rw [if_pos (by revert hfh; cases fieldHasNewline w <;> simp)] at h
        exact absurd h.1 (by simp)
      · exact ((ih n (c + 1)).mp h.2) w hv
    · intro h
      rw [if_neg (by rw [h v (List.mem_cons_self v vs)]; simp), List.nil_append]
      exact (ih n (c + 1)).mpr (fun w hw => h w (List.mem_cons_of_mem v hw))

theorem errsFrom_eq_nil_iff (rows : List (List (List Char))) :
    ∀ n : Nat,
      errsFrom n rows = [] ↔ ∀ r ∈ rows, ∀ v ∈ r, fieldHasNewline v = false := by
  induction rows with
  | nil => intro n; simp [errsFrom]
  | cons r rs ih =>
    intro n
    rw [errsFrom, List.append_eq_nil, rowErrors_eq_nil_iff, ih]
    constructor
    · intro h w hw
      rcases List.mem_cons.mp hw with hv | hv
      · subst hv; exact h.1
      · exact h.2 w hv
    · intro h
      exact ⟨h r (List.mem_cons_self r rs),
        fun w hw => h w (List.mem_cons_of_mem r hw)⟩

theorem plainChar_spec (c : Char) (h : plainChar c = true) :
    ¬ c = '\t' ∧ ¬ c = '\r' ∧ ¬ c = '\n' ∧ ¬ c = '"' := by
  rw [plainChar] at h
  simp at h
  exact ⟨h.1.1.1, h.1.1.2, h.1.2, h.2⟩

theorem csvScan_startRecord_cons (row : List (List Char)) (field : List Char)
    (c : Char) (input : List Char) :
    csvScan .startRecord row field (c :: input)
      = if c = '\r' then [] :: csvScan .eatCRNL [] [] input
        else if c = '\n' then [] :: csvScan .startRecord [] [] input
        else if c = '\t' then csvScan .startField [[]] [] input
        else if c = '"' then csvScan .inQuoted [] [] input
        else csvScan .inField [] [c] input := rfl

theorem csvScan_inField_cons (row : List (List Char)) (field : List Char)
    (c : Char) (input : List Char) :
    csvScan .inField row field (c :: input)
      = if c = '\r' then (row ++ [field]) :: csvScan .eatCRNL [] [] input
        else if c = '\n' then (row ++ [field]) :: csvScan .startRecord [] [] input
        else if c = '\t' then csvScan .startField (row ++ [field]) [] input
        else csvScan .inField row (field ++ [c]) input := rfl

theorem csvScan_inQuoted_cons (row : List (List Char)) (field : List Char)
    (c : Char) (input : List Char) :
    csvScan .inQuoted row field (c :: input)
      = if c = '"' then csvScan .quoteInQuoted row field input
        else csvScan .inQuoted row (field ++ [c]) input := rfl

theorem csvScan_inField_append (cs : List Char) :
    ∀ (row : List (List Char)) (field rest : List Char),
      cs.all plainChar = true →
      csvScan .inField row field (cs ++ rest)
        = csvScan .inField row (field ++ cs) rest := by
  induction cs with
  | nil => intro row field rest _; simp
  | cons c cs ih =>
    intro row field rest h
    rw [List.all_cons, Bool.and_eq_true] at h
    obtain ⟨h1, h2, h3, _⟩ := plainChar_spec c h.1
    rw [List.cons_append, csvScan_inField_cons, if_neg h2, if_neg h3, if_neg h1,
      ih row (field ++ [c]) rest h.2, List.append_assoc]
    rfl

theorem csvScan_inQuoted_append (cs : List Char) :
    ∀ (row : List (List Char)) (field rest : List Char),
      cs.all (fun c => !(c == '"')) = true →
      csvScan .inQuoted row field (cs ++ rest)
        = csvScan .inQuoted row (field ++ cs) rest := by
  induction cs with
  | nil => intro row field rest _; simp
  | cons c cs ih =>
    intro row field rest h
    rw [List.all_cons, Bool.and_eq_true] at h
    have hq : ¬ c = '"' := by simpa using h.1
    rw [List.cons_append, csvScan_inQuoted_cons, if_neg hq,
      ih row (field ++ [c]) rest h.2, List.append_assoc]
    rfl

theorem csvScan_startRecord_plain_run (u : List Char) (x : Char)
    (rest : List Char) (hx : plainChar x = true) (hu : u.all plainChar = true) :
    csvScan .startRecord [] [] ((x :: u) ++ rest)
      = csvScan .inField [] (x :: u) rest := by
  obtain ⟨h1, h2, h3, h4⟩ := plainChar_spec x hx
  rw [List.cons_append, csvScan_startRecord_cons, if_neg h2, if_neg h3,
    if_neg h1, if_neg h4, csvScan_inField_append u [] [x] rest hu]
  rfl

theorem csvScan_eatCRNL_cons (row : List (List Char)) (field : List Char)
    (c : Char) (input : List Char) :
    csvScan .eatCRNL row field (c :: input)
      = if c = '\n' then csvScan .startRecord [] [] input
        else if c = '\r' then [] :: csvScan .eatCRNL [] [] input
        else if c = '\t' then csvScan .startField [[]] [] input
        else if c = '"' then csvScan .inQuoted [] [] input
        else csvScan .inField [] [c] input := rfl

theorem csvScan_eatCRNL_plain_run (u : List Char) (x : Char)
    (rest : List Char) (hx : plainChar x = true) (hu : u.all plainChar = true) :
    csvScan .eatCRNL [] [] ((x :: u) ++ rest)
      = csvScan .inField [] (x :: u) rest := by
  obtain ⟨h1, h2, h3, h4⟩ := plainChar_spec x hx
  rw [List.cons_append, csvScan_eatCRNL_cons, if_neg h3, if_neg h2, if_neg h1,
    if_neg h4, csvScan_inField_append u [] [x] rest hu]
  rfl

theorem all_nonquote_of_plain (l : List Char) (h : l.all plainChar = true) :
    l.all (fun c => !(c == '"')) = true := by
  rw [List.all_eq_true] at h ⊢
  intro c hc
  have hq := (plainChar_spec c (h c hc)).2.2.2
  simpa using hq

theorem csvParse_quoted_record (cs : List Char)
    (h : cs.all (fun c => !(c == '"')) = true) :
    csvParse ('"' :: (cs ++ ['"', '\r', '\n'])) = [[cs]] := by
  have step_q : ∀ (r : List (List Char)) (f : List Char),
      csvScan .inQuoted r f ['"', '\r', '\n'] = [r ++ [f]] := fun _ _ => rfl
  calc csvParse ('"' :: (cs ++ ['"', '\r', '\n']))
      = csvScan .inQuoted [] [] (cs ++ ['"', '\r', '\n']) := by
        rw [csvParse, csvScan_startRecord_cons, if_neg (by decide),
          if_neg (by decide), if_neg (by decide), if_pos rfl]
    _ = csvScan .inQuoted [] ([] ++ cs) ['"', '\r', '\n'] :=
        csvScan_inQuoted_append cs [] [] _ h
    _ = [[cs]] := by rw [step_q]; simp

theorem mem_rowErrors (row : List (List Char)) :
    ∀ (n c : Nat) (e : String), e ∈ rowErrors n c row →
      ∃ j, e = errLine n (c + j) ∧ fieldHasNewline (row.getD j []) = true := by
  induction row with
  | nil => intro n c e h; simp [rowErrors] at h
  | cons v vs ih =>
    intro n c e h
    rw [rowErrors] at h
    rcases List.mem_append.mp h with h | h
    · cases hv : fieldHasNewline v with
      | false => rw [hv] at h; simp at h
      | true =>
        rw [hv] at h
        simp only [if_true] at h
        refine ⟨0, ?_, by simpa using hv⟩
        simpa using List.mem_singleton.mp h
    · obtain ⟨j, hj, hf⟩ := ih n (c + 1) e h
      refine ⟨j + 1, ?_, by simpa using hf⟩
      rw [hj]
      congr 1
      omega

theorem mem_errsFrom (rows : List (List (List Char))) :
    ∀ (n : Nat) (e : String), e ∈ errsFrom n rows →
      ∃ i j, e = errLine (n + i + 1) (1 + j) ∧
        fieldHasNewline ((rows.getD i []).getD j []) = true := by
  induction rows with
  | nil => intro n e h; simp [errsFrom] at h
  | cons r rs ih =>
    intro n e h
    rw [errsFrom] at h
    rcases List.mem_append.mp h with h | h
    · obtain ⟨j, hj, hf⟩ := mem_rowErrors r (n + 1) 1 e h
      exact ⟨0, j, by rw [hj], by simpa using hf⟩
    · obtain ⟨i, j, hj, hf⟩ := ih (n + 1) e h
      refine ⟨i + 1, j, ?_, by simpa using hf⟩
      rw [hj]
      congr 1
      omega

theorem escapeQuotes_no_quote (l : List Char) (h : ∀ c ∈ l, c ≠ '"') :
    escapeQuotes l = l := by
  induction l with
  | nil => rfl
  | cons c cs ih =>
    rw [escapeQuotes, if_neg (h c (List.mem_cons_self c cs)),
      ih (fun c' hc' => h c' (List.mem_cons_of_mem c hc'))]
    rfl

theorem spaceUnderscore_no_space (l : List Char) (h : ∀ c ∈ l, c ≠ ' ') :
    spaceUnderscore l = l := by
  rw [spaceUnderscore]
  conv_rhs => rw [← List.map_id l]
  apply List.map_congr_left
  intro a ha
  rw [if_neg (h a ha)]
  rfl

theorem digitChar_safe (m : Nat) :
    Nat.digitChar m ≠ ' ' ∧ Nat.digitChar m ≠ '"' := by
  rcases Nat.lt_or_ge m 16 with h | h
  · interval_cases m <;> exact ⟨by decide, by decide⟩
  · have h0 : Nat.digitChar m = '*' := by
      rw [Nat.digitChar]
      repeat rw [if_neg (by omega)]
    rw [h0]
    exact ⟨by decide, by decide⟩

theorem toDigitsCore_safe (b : Nat) :
    ∀ (fuel n : Nat) (acc : List Char),
      (∀ c ∈ acc, c ≠ ' ' ∧ c ≠ '"') →
      ∀ c ∈ Nat.toDigitsCore b fuel n acc, c ≠ ' ' ∧ c ≠ '"' := by
  intro fuel
  induction fuel with
  | zero => intro n acc hacc; exact hacc
  | succ fuel ih =>
    intro n acc hacc c hc
    rw [Nat.toDigitsCore] at hc
    split at hc
    · rcases List.mem_cons.mp hc with h | h
      · subst h; exact digitChar_safe _
      · exact hacc _ h
    · refine ih _ _ ?_ c hc
      intro c' hc'
      rcases List.mem_cons.mp hc' with h | h
      · subst h; exact digitChar_safe _
      · exact hacc _ h

theorem toString_nat_safe (n : Nat) :
    ∀ c ∈ (toString n).data, c ≠ ' ' ∧ c ≠ '"' := by
  intro c hc
  have h : (toString n).data = Nat.toDigits 10 n := rfl
  rw [h, Nat.toDigits] at hc
  exact toDigitsCore_safe 10 _ _ [] (by simp) c hc

end HelperLemmas

/-- C1: for every input table the computed width at column `i` is the
maximum over all data rows of the length of the trimmed value at column
`i` (`0` when the column never occurs, rows shorter than the column count
contributing the empty value), the header row contributing nothing to any
width; and the width array length is the running maximum of the header
length and the row lengths. -/
theorem C1_column_widths (headers : List (List Char))
    (rows : List (List (List Char))) (i : Nat) :
    (scanAll headers rows).maxLens.getD i 0
      = (rows.map (fun r => (pyStrip (r.getD i [])).length)).foldr max 0 ∧
    (scanAll headers rows).maxLens.length
      = rows.foldl (fun n r => max n r.length) headers.length := by
  constructor
  · rw [scanAll, scan_foldl_maxLens, widths_foldl_getD]
    show max ((List.replicate headers.length 0).getD i 0) _ = _
    rw [getD_replicate_zero]
    exact Nat.zero_max _
  · rw [scanAll, scan_foldl_maxLens, widths_foldl_length]
    simp

/-- C2: on the input `Name TAB Age CRLF Alice TAB 30 CRLF Bob TAB 5 CRLF`
the pipeline succeeds with widths `[5, 2]` and produces exactly the two
specified definition lines joined by a single newline, each with its
3-digit zero-padded index label and embedded literal newline. -/
theorem C2_scenario :
    main (some ("Name\tAge\r\nAlice\t30\r\nBob\t5\r\n").data)
      = Outcome.generated
          ("F001_Name computed \nsubstr( alltrim( split( Full_Record , chr( 009 ), 001 , chr( 34 ) ) ) , 1 , 5 )"
            ++ "\n"
            ++ "F002_Age computed \nsubstr( alltrim( split( Full_Record , chr( 009 ), 002 , chr( 34 ) ) ) , 1 , 2 )") ∧
    (scanAll [("Name").data, ("Age").data]
        [[("Alice").data, ("30").data], [("Bob").data, ("5").data]]).maxLens
      = [5, 2] := by
  set_option maxRecDepth 8192 in
  exact ⟨by decide, by decide⟩

/-- C9: a source yielding no header record gives the empty-source outcome
with exit signal 1, distinct from the source-unavailable outcome and its
exit signal 2. -/
theorem C9_empty_source (text : List Char) (h : csvParse text = []) :
    main (some text) = Outcome.emptySource ∧
    main none = Outcome.sourceUnavailable ∧
    Outcome.emptySource ≠ Outcome.sourceUnavailable ∧
    exitSignal Outcome.emptySource = 1 ∧
    exitSignal Outcome.sourceUnavailable = 2 := by
  refine ⟨?_, rfl, by decide, rfl, rfl⟩
  rw [main, h]

/-- Witness for C9 at the empty input. -/
theorem C9_empty_source_witness :
    csvParse [] = [] ∧
    (main (some []) = Outcome.emptySource ∧
      main none = Outcome.sourceUnavailable ∧
      Outcome.emptySource ≠ Outcome.sourceUnavailable ∧
      exitSignal Outcome.emptySource = 1 ∧
      exitSignal Outcome.sourceUnavailable = 2) :=
  ⟨rfl, C9_empty_source [] rfl⟩

/-- C7: the UTF-8 byte-order mark is NOT detected, because the source
compares against `b'\xef\xbb\bf'` — the bytes EF BB 08 66, `\b` being a
backspace — instead of EF BB BF; a file starting with the real UTF-8 BOM
falls through to the guessers (or the `utf-8` default), while the UTF-16
BOM checks do work and take priority over any guesser. -/
theorem C7_bom_detection :
    detect_encoding [0xEF, 0xBB, 0xBF, 0x41] (fun _ => none) (fun _ => none)
      = "utf-8" ∧
    detect_encoding [0xEF, 0xBB, 0xBF, 0x41] (fun _ => some "cp1252")
        (fun _ => none) = "cp1252" ∧
    "utf-8" ≠ "utf-8-sig" ∧
    detect_encoding [0xEF, 0xBB, 0x08, 0x66] (fun _ => none) (fun _ => none)
      = "utf-8-sig" ∧
    detect_encoding [0xFF, 0xFE, 0x41, 0x00] (fun _ => some "gbk")
        (fun _ => none) = "utf-16" ∧
    detect_encoding [0xFE, 0xFF, 0x00, 0x41] (fun _ => some "gbk")
        (fun _ => none) = "utf-16" :=
  ⟨rfl, rfl, by decide, rfl, rfl, rfl⟩

/-- C10: the `replaced` flag is write-only; the pipeline is extensionally
equal to the comparison embedding that does not track it, and the collected
errors and the computed widths agree with that embedding on every input. -/
theorem C10_replaced_flag_unused (input : Option (List Char))
    (hs : List (List Char)) (rows : List (List (List Char))) :
    main input = mainNoFlag input ∧
    (scanAll hs rows).errors = (scanAllNoFlag hs rows).errors ∧
    (scanAll hs rows).maxLens = (scanAllNoFlag hs rows).maxLens := by
  have hfold : ∀ (rs : List (List (List Char))) (st : ScanState),
      (rs.foldl scanRow st).errors
          = (rs.foldl scanRowNoFlag ⟨st.errors, st.maxLens, st.rowno⟩).errors ∧
      (rs.foldl scanRow st).maxLens
          = (rs.foldl scanRowNoFlag ⟨st.errors, st.maxLens, st.rowno⟩).maxLens ∧
      (rs.foldl scanRow st).rowno
          = (rs.foldl scanRowNoFlag ⟨st.errors, st.maxLens, st.rowno⟩).rowno := by
    intro rs
    induction rs with
    | nil => intro st; exact ⟨rfl, rfl, rfl⟩
    | cons r rs ih => intro st; exact ih (scanRow st r)
  have hscan : ∀ (hs' : List (List Char)) (rows' : List (List (List Char))),
      (scanAll hs' rows').errors = (scanAllNoFlag hs' rows').errors ∧
      (scanAll hs' rows').maxLens = (scanAllNoFlag hs' rows').maxLens := by
    intro hs' rows'
    exact ⟨(hfold rows' _).1, (hfold rows' _).2.1⟩
  refine ⟨?_, (hscan hs rows).1, (hscan hs rows).2⟩
  cases input with
  | none => rfl
  | some text =>
    rw [main, mainNoFlag]
    cases h : csvParse text with
    | nil => rfl
    | cons headers dataRows =>
      dsimp only
      rw [(hscan headers dataRows).1, (hscan headers dataRows).2]

/-- C3 counterexample: the field `x"y` has an odd raw quote count, yet the
scan records no validation error for it and the pipeline generates both
definition lines instead of skipping generation. -/
theorem C3_counterexample_odd_quotes :
    csvParse ("A\tB\r\nx\"y\tz\r\n").data
      = [[['A'], ['B']], [['x', '"', 'y'], ['z']]] ∧
    (['x', '"', 'y'].count '"') % 2 = 1 ∧
    (scanAll [['A'], ['B']] [[['x', '"', 'y'], ['z']]]).errors = [] ∧
    main (some ("A\tB\r\nx\"y\tz\r\n").data)
      = Outcome.generated
          ("F001_A computed \nsubstr( alltrim( split( Full_Record , chr( 009 ), 001 , chr( 34 ) ) ) , 1 , 3 )"
            ++ "\n"
            ++ "F002_B computed \nsubstr( alltrim( split( Full_Record , chr( 009 ), 002 , chr( 34 ) ) ) , 1 , 1 )") := by
  set_option maxRecDepth 8192 in
  exact ⟨by decide, by decide, by decide, by decide⟩

/-- C3 (amended): the scanner performs no quote-count validation at all; a
validation error is recorded exactly for the fields of data rows that
contain at least one raw CR or LF character, and generation is skipped
exactly when at least one such field exists. -/
theorem C3_newline_only_validation (text : List Char) (hs : List (List Char))
    (rows : List (List (List Char))) (hparse : csvParse text = hs :: rows) :
    ((scanAll hs rows).errors = [] ↔
      ∀ r ∈ rows, ∀ v ∈ r, fieldHasNewline v = false) ∧
    (main (some text) = Outcome.structuralViolation (scanAll hs rows).errors ↔
      ∃ r ∈ rows, ∃ v ∈ r, fieldHasNewline v = true) := by
  have herr : (scanAll hs rows).errors = errsFrom 1 rows := by
    rw [scanAll, scan_foldl_errors]
    simp
  have hiff : (scanAll hs rows).errors = [] ↔
      ∀ r ∈ rows, ∀ v ∈ r, fieldHasNewline v = false := by
    rw [herr]
    exact errsFrom_eq_nil_iff rows 1
  have hmain : main (some text)
      = if (scanAll hs rows).errors = [] then
          Outcome.generated
            (String.intercalate "\n" (genLines hs (scanAll hs rows).maxLens))
        else Outcome.structuralViolation (scanAll hs rows).errors := by
    rw [main, hparse]
  refine ⟨hiff, ?_⟩
  by_cases hE : (scanAll hs rows).errors = []
  · rw [hmain, if_pos hE]
    constructor
    · intro h
      exact absurd h (by simp)
    · rintro ⟨r, hr, v, hv, hf⟩
      have := (hiff.mp hE) r hr v hv
      rw [hf] at this
      exact absurd this (by simp)
  · rw [hmain, if_neg hE]
    constructor
    · intro _
      by_contra hno
      push_neg at hno
      exact hE (hiff.mpr (fun r hr v hv => by
        have := hno r hr v hv
        revert this
        cases fieldHasNewline v <;> simp))
    · intro _
      rfl

/-- Witness for C3 (amended) at a two-record input with no embedded
newline in any field. -/
theorem C3_newline_only_validation_witness :
    csvParse ("A\r\nB\r\n").data = [['A']] :: [[['B']]] ∧
    (((scanAll [['A']] [[['B']]]).errors = [] ↔
      ∀ r ∈ [[['B']]], ∀ v ∈ r, fieldHasNewline v = false) ∧
    (main (some ("A\r\nB\r\n").data)
        = Outcome.structuralViolation (scanAll [['A']] [[['B']]]).errors ↔
      ∃ r ∈ [[['B']]], ∃ v ∈ r, fieldHasNewline v = true)) :=
  ⟨by decide, C3_newline_only_validation _ _ _ (by decide)⟩

/-- C4 counterexample: the input `a LF b CR LF` contains a lone LF and the
input `a CR b CR LF` a lone CR, which the claim says must be field data and
never record terminators; the row parser nevertheless splits at both,
producing two records each time, and no field of either result contains
the newline character. -/
theorem C4_counterexample_lone_newlines :
    csvParse ("a\nb\r\n").data = [[['a']], [['b']]] ∧
    ((csvParse ("a\nb\r\n").data).all
      (fun r => r.all (fun f => !(f.any (fun c => c == '\n'))))) = true ∧
    csvParse ("a\rb\r\n").data = [[['a']], [['b']]] ∧
    ((csvParse ("a\rb\r\n").data).all
      (fun r => r.all (fun f => !(f.any (fun c => c == '\r'))))) = true :=
  ⟨by decide, by decide, by decide, by decide⟩

/-- C4 (amended): records are terminated by CR LF and also by a lone CR or
lone LF occurring outside a double-quoted field; a CR or LF is field data
only inside a double-quoted field. Shown for both characters: outside
quotes a lone LF or lone CR splits two records (a CR immediately followed
by LF being consumed as one terminator), while inside quotes the same LF
or CR stays in the field. -/
theorem C4_record_delimiters (a b : List Char)
    (ha : a.all plainChar = true) (hb : b.all plainChar = true)
    (ha' : a ≠ []) (hb' : b ≠ []) :
    csvParse (a ++ ('\n' :: (b ++ ['\r', '\n']))) = [[a], [b]] ∧
    csvParse (a ++ ('\r' :: (b ++ ['\r', '\n']))) = [[a], [b]] ∧
    csvParse ('"' :: ((a ++ ('\n' :: b)) ++ ['"', '\r', '\n']))
      = [[a ++ ('\n' :: b)]] ∧
    csvParse ('"' :: ((a ++ ('\r' :: b)) ++ ['"', '\r', '\n']))
      = [[a ++ ('\r' :: b)]] := by
  obtain ⟨x, a', rfl⟩ : ∃ x a', a = x :: a' := by
    cases a with
    | nil => exact absurd rfl ha'
    | cons x a' => exact ⟨x, a', rfl⟩
  obtain ⟨y, b', rfl⟩ : ∃ y b', b = y :: b' := by
    cases b with
    | nil => exact absurd rfl hb'
    | cons y b' => exact ⟨y, b', rfl⟩
  have hax := ha
  rw [List.all_cons, Bool.and_eq_true] at hax
  have hby := hb
  rw [List.all_cons, Bool.and_eq_true] at hby
  have step_nl : ∀ (r : List (List Char)) (f rest' : List Char),
      csvScan .inField r f ('\n' :: rest')
        = (r ++ [f]) :: csvScan .startRecord [] [] rest' := fun _ _ _ => rfl
  have step_cr : ∀ (r : List (List Char)) (f rest' : List Char),
      csvScan .inField r f ('\r' :: rest')
        = (r ++ [f]) :: csvScan .eatCRNL [] [] rest' := fun _ _ _ => rfl
  have step_crlf : ∀ (r : List (List Char)) (f : List Char),
      csvScan .inField r f ['\r', '\n'] = [r ++ [f]] := fun _ _ => rfl
  have hnq : ∀ c : Char, (!(c == '"')) = true →
      ((x :: a') ++ (c :: (y :: b'))).all (fun d => !(d == '"')) = true := by
    intro c hc
    rw [List.all_append, Bool.and_eq_true]
    refine ⟨all_nonquote_of_plain _ ha, ?_⟩
    rw [List.all_cons, Bool.and_eq_true]
    exact ⟨hc, all_nonquote_of_plain _ hb⟩
  refine ⟨?_, ?_, ?_, ?_⟩
  · rw [csvParse, csvScan_startRecord_plain_run a' x _ hax.1 hax.2, step_nl,
      csvScan_startRecord_plain_run b' y _ hby.1 hby.2, step_crlf]
    rfl
  · rw [csvParse, csvScan_startRecord_plain_run a' x _ hax.1 hax.2, step_cr,
      csvScan_eatCRNL_plain_run b' y _ hby.1 hby.2, step_crlf]
    rfl
  · exact csvParse_quoted_record _ (hnq '\n' (by decide))
  · exact csvParse_quoted_record _ (hnq '\r' (by decide))

/-- Witness for C4 (amended) at the one-character fields `a` and `b`. -/
theorem C4_record_delimiters_witness :
    (['a'].all plainChar = true ∧ ['b'].all plainChar = true ∧
      ['a'] ≠ ([] : List Char) ∧ ['b'] ≠ ([] : List Char)) ∧
    (csvParse (['a'] ++ ('\n' :: (['b'] ++ ['\r', '\n']))) = [[['a']], [['b']]] ∧
      csvParse (['a'] ++ ('\r' :: (['b'] ++ ['\r', '\n']))) = [[['a']], [['b']]] ∧
      csvParse ('"' :: ((['a'] ++ ('\n' :: ['b'])) ++ ['"', '\r', '\n']))
        = [[['a'] ++ ('\n' :: ['b'])]] ∧
      csvParse ('"' :: ((['a'] ++ ('\r' :: ['b'])) ++ ['"', '\r', '\n']))
        = [[['a'] ++ ('\r' :: ['b'])]]) :=
  ⟨⟨by decide, by decide, by decide, by decide⟩,
    C4_record_delimiters ['a'] ['b'] (by decide) (by decide) (by decide)
      (by decide)⟩

/-- C5 counterexample: the field `a LF b` contains exactly one
newline-class character (count 1, not exceeding 1), yet the scan flags it
and records a validation error for it. -/
theorem C5_counterexample_single_newline :
    (scanAll [['h']] [[['a', '\n', 'b']]]).errors = [errLine 2 1] ∧
    fieldHasNewline ['a', '\n', 'b'] = true ∧
    ['a', '\n', 'b'].count '\n' + ['a', '\n', 'b'].count '\r' = 1 ∧
    ¬ (['a', '\n', 'b'].count '\n' + ['a', '\n', 'b'].count '\r' > 1) :=
  ⟨by decide, by decide, by decide, by decide⟩

/-- C5 (amended): the newline structural check flags a field exactly when
its count of LF characters plus its count of CR characters is at least 1,
i.e. when the field contains any newline-class character at all. -/
theorem C5_newline_flag_threshold (v : List Char) :
    fieldHasNewline v = true ↔ 1 ≤ v.count '\n' + v.count '\r' := by
  rw [fieldHasNewline, Bool.or_eq_true, List.any_eq_true, List.any_eq_true]
  have h1 : (∃ x ∈ v, (x == '\n') = true) ↔ '\n' ∈ v := by simp
  have h2 : (∃ x ∈ v, (x == '\r') = true) ↔ '\r' ∈ v := by simp
  rw [h1, h2, ← List.count_pos_iff, ← List.count_pos_iff]
  omega

/-- C6 counterexample: for a single collected error the report has three
lines, not the claimed header-plus-one-line-per-error two, because of the
fixed banner line; and the per-error line is the scanner's
embedded-newline message, which carries no quote or newline counts. -/
theorem C6_counterexample_report_shape :
    (writeErrorReport "2026-10-12 00:00:00" [errLine 2 1]).length = 3 ∧
    ¬ ((writeErrorReport "2026-10-12 00:00:00" [errLine 2 1]).length = 1 + 1) ∧
    (writeErrorReport "2026-10-12 00:00:00" [errLine 2 1]).getD 1 ""
      = "Error: malformed lines detected:" ∧
    errLine 2 1 = "Line 2, Column 1: embedded newline in field" :=
  ⟨by decide, by decide, by decide, by decide⟩

/-- C6 (amended): the report is the timestamped count header, then the
fixed line `Error: malformed lines detected:`, then the collected error
strings in encounter order; every collected error string is
`Line <n>, Column <c>: embedded newline in field` for the 1-based record
and column numbers of an actual field containing a newline-class
character (no quote or newline counts appear in it). -/
theorem C6_report_lines (now : String) (hs : List (List Char))
    (rows : List (List (List Char))) :
    writeErrorReport now (scanAll hs rows).errors
      = (now ++ " - " ++ toString (scanAll hs rows).errors.length
            ++ " errors detected")
          :: "Error: malformed lines detected:" :: (scanAll hs rows).errors ∧
    ∀ e ∈ (scanAll hs rows).errors, ∃ n c,
      e = errLine (n + 2) (c + 1) ∧
      fieldHasNewline ((rows.getD n []).getD c []) = true := by
  refine ⟨rfl, ?_⟩
  intro e he
  have herr : (scanAll hs rows).errors = errsFrom 1 rows := by
    rw [scanAll, scan_foldl_errors]
    simp
  rw [herr] at he
  obtain ⟨i, j, hj, hf⟩ := mem_errsFrom rows 1 e he
  refine ⟨i, j, ?_, hf⟩
  rw [hj]
  congr 1 <;> omega

/-- C8: the emitted header label is the trimmed header text with every
double-quote escaped as backslash-quote and then every space replaced by
an underscore when the header value is present, and the synthesized
placeholder `COL` followed by `i+1` otherwise; in particular
`Full Name"Test` becomes `Full_Name\"Test`. -/
theorem C8_header_sanitization (headers : List (List Char)) (i : Nat) :
    headerSafe headers i
      = (if i < headers.length then
          spaceUnderscore (escapeQuotes (pyStrip (headers.getD i [])))
        else ("COL" ++ toString (i + 1)).data) ∧
    headerSafe [("Full Name\"Test").data] 0 = ("Full_Name\\\"Test").data := by
  constructor
  · rw [headerSafe]
    split
    · rfl
    · have hsafe : ∀ c ∈ ("COL" ++ toString (i + 1)).data,
          c ≠ ' ' ∧ c ≠ '"' := by
        rw [String.data_append]
        intro c hc
        rcases List.mem_append.mp hc with h | h
        · have hC : ("COL").data = ['C', 'O', 'L'] := rfl
          rw [hC] at h
          fin_cases h <;> exact ⟨by decide, by decide⟩
        · exact toString_nat_safe (i + 1) c h
      rw [escapeQuotes_no_quote _ (fun c hc => (hsafe c hc).2),
        spaceUnderscore_no_space _ (fun c hc => (hsafe c hc).1)]
  · decide

end DataHandle
